/-
Verification of core components of the kopia snapshot engine against its
specification: the merged pack index, the committed content index, the v2
pack-index builder, the directory-manifest builder, the uploader's
parallelism and cancellation logic, and the snapshot garbage collector.

Shallow embedding notes:
  * Go `int`/`int64` values are modelled as `Int`, unsigned sizes as `Nat`;
    none of the verified properties depend on machine-width overflow.
  * `time.Time` values are modelled by their Unix seconds as `Int`
    (`a.After(b)` becomes `b < a`).
  * Content IDs and blob IDs are modelled as `String`.
-/
import Mathlib

namespace Kopia

/-- An index entry (the `Info` interface of `repo/content/index`): content ID,
timestamp in seconds, pack blob ID, offset/lengths, format descriptor fields
and the deleted flag. -/
structure Info where
  contentID : String
  timestampSeconds : Int
  packBlobID : String
  packOffset : Nat
  packedLength : Nat
  originalLength : Nat
  deleted : Bool
  formatVersion : Nat := 0
  compressionHeaderID : Nat := 0
  encryptionKeyID : Nat := 0
deriving DecidableEq

/-- An underlying pack index observed through `GetInfo`: a partial map from
content IDs to entries. -/
def Index : Type := String → Option Info

/-- The precedence key of the merged index: greater timestamp first, then
non-deleted over deleted (rank 1 over rank 0), then lexicographically greater
pack blob ID. An entry wins when its key is strictly greater. -/
def infoKey (i : Info) : Int ×ₗ (Nat ×ₗ String) :=
  toLex (i.timestampSeconds, toLex ((if i.deleted then 0 else 1 : Nat), i.packBlobID))

/-- The entries the underlying indexes return for one content ID, in index
order. -/
def mergedCandidates (m : List Index) (contentID : String) : List Info :=
  m.filterMap (fun ndx => ndx contentID)

/-- Keep the better of the running best entry and a new candidate: the new one
replaces the best exactly when its precedence key is strictly greater. -/
def pickBetter (best : Option Info) (i : Info) : Option Info :=
  match best with
  | none => some i
  | some b => if infoKey b < infoKey i then some i else some b

/-- Fold `pickBetter` over a list of candidates starting from `b`. -/
def pickBestFrom (b : Option Info) (l : List Info) : Option Info :=
  l.foldl pickBetter b

/-- Modelled from the spec: `Merged.GetInfo` (file `merged.go`, not among the
provided sources). Probes every underlying index for the content ID and keeps
the entry chosen by deterministic precedence: latest timestamp wins; on tie a
non-deleted entry wins over a deleted one; on further tie the lexicographically
greatest pack blob ID wins. -/
def mergedGetInfo (m : List Index) (contentID : String) : Option Info :=
  m.foldl (fun best ndx =>
    match ndx contentID with
    | none => best
    | some i => pickBetter best i) none

/-- Errors surfaced by `committedContentIndex.getContent`: the distinguished
not-found error, or a wrapped index error. -/
inductive ContentErr where
  | notFound
  | indexError (msg : String)
deriving DecidableEq

/-- `shouldIgnore`: a deleted entry is hidden exactly when its timestamp is not
after the deletion watermark. -/
def shouldIgnore (i : Info) (deletionWatermark : Int) : Bool :=
  if i.deleted = false then false
  else !(decide (deletionWatermark < i.timestampSeconds))

/-- `committedContentIndex.getContent`: read through the merged view (modelled
as a function returning the `(Info, error)` pair of `Merged.GetInfo`). A found
entry hidden by the watermark is reported as not-found; a found entry is
otherwise returned (the error component is ignored when an entry was found);
with neither entry nor error the result is not-found; otherwise the index
error is propagated wrapped. -/
def getContent (merged : String → Option Info × Option String)
    (deletionWatermark : Int) (contentID : String) : Except ContentErr Info :=
  match merged contentID with
  | (some info, _) =>
    if shouldIgnore info deletionWatermark then .error .notFound
    else .ok info
  | (none, none) => .error .notFound
  | (none, some msg) => .error (.indexError ("error getting content info from index: " ++ msg))

/-- Maximum number of unique format descriptors in a v2 index. -/
def v2MaxFormatCount : Nat := 255

/-- Maximum number of unique pack blob IDs in a v2 index. -/
def v2MaxUniquePackIDCount : Nat := 2 ^ 24

/-- Maximum pack-ID count representable with two bytes. -/
def v2MaxShortPackIDCount : Nat := 2 ^ 16

/-- Maximum supported content length of a v2 index entry. -/
def v2MaxContentLength : Nat := 2 ^ 28

/-- Maximum content length representable with three bytes. -/
def v2MaxShortContentLength : Nat := 2 ^ 24

/-- Maximum pack offset of a v2 index entry. -/
def v2MaxPackOffset : Nat := 2 ^ 30

/-- Offset constants of the variable-length v2 entry body. -/
def v2EntryOffsetFormatID : Nat := 16

/-- End of the optional format-ID byte. -/
def v2EntryOffsetFormatIDEnd : Nat := 17

/-- End of the optional extended pack-blob-ID byte. -/
def v2EntryOffsetExtendedPackBlobIDEnd : Nat := 18

/-- End of the optional high-length-bits byte. -/
def v2EntryOffsetHighLengthBitsEnd : Nat := 19

/-- A unique content format descriptor (`indexV2FormatInfo`). -/
structure FormatInfo where
  compressionHeaderID : Nat
  formatVersion : Nat
  encryptionKeyID : Nat
deriving DecidableEq

/-- `indexV2FormatInfoFromInfo`: the format descriptor of one entry. -/
def indexV2FormatInfoFromInfo (i : Info) : FormatInfo :=
  { compressionHeaderID := i.compressionHeaderID
    formatVersion := i.formatVersion
    encryptionKeyID := i.encryptionKeyID }

/-- The distinct format descriptors of the input, in first-appearance order
(`buildUniqueFormatToIndexMap` keyed map, represented by its key list). -/
def uniqueFormats (sortedInfos : List Info) : List FormatInfo :=
  (sortedInfos.map indexV2FormatInfoFromInfo).dedup

/-- The distinct pack blob IDs of the input (`buildPackIDToIndexMap`). -/
def uniquePackIDs (sortedInfos : List Info) : List String :=
  (sortedInfos.map (fun i => i.packBlobID)).dedup

/-- `maxContentLengths`: the maxima of packed length, original length and pack
offset over the input, computed in one pass. -/
def maxContentLengths (sortedInfos : List Info) : Nat × Nat × Nat :=
  sortedInfos.foldl
    (fun acc i =>
      (Nat.max acc.1 i.packedLength,
       Nat.max acc.2.1 i.originalLength,
       Nat.max acc.2.2 i.packOffset))
    (0, 0, 0)

/-- The result of `newIndexBuilderV2` (maps and offsets elided; the claim is
about the bound checks and the selected entry size). The content-ID byte
encoding is abstracted by the ID's string length. -/
structure IndexBuilderV2 where
  entryCount : Nat
  entrySize : Nat
  keyLength : Int
deriving DecidableEq

/-- `newIndexBuilderV2`: refuses to build when there are more than 255 unique
formats, more than 2^24 unique pack IDs, any content length is at least 2^28,
or any pack offset is at least 2^30; otherwise selects the smallest entry size
that fits the dataset. `buildV2` runs this before writing anything, so a
failure writes no index. -/
def newIndexBuilderV2 (sortedInfos : List Info) : Except String IndexBuilderV2 :=
  let entrySize0 := v2EntryOffsetFormatID
  let uniqueFormat2Index := uniqueFormats sortedInfos
  if uniqueFormat2Index.length > v2MaxFormatCount then
    .error "unsupported - too many unique formats"
  else
    let entrySize1 :=
      if uniqueFormat2Index.length > 1 then Nat.max entrySize0 v2EntryOffsetFormatIDEnd
      else entrySize0
    let packID2Index := uniquePackIDs sortedInfos
    if packID2Index.length > v2MaxUniquePackIDCount then
      .error "unsupported - too many unique pack IDs"
    else
      let entrySize2 :=
        if packID2Index.length > v2MaxShortPackIDCount then
          Nat.max entrySize1 v2EntryOffsetExtendedPackBlobIDEnd
        else entrySize1
      let m := maxContentLengths sortedInfos
      if m.1 ≥ v2MaxContentLength ∨ m.2.1 ≥ v2MaxContentLength then
        .error "maximum content length is too high"
      else
        let entrySize3 :=
          if m.1 ≥ v2MaxShortContentLength ∨ m.2.1 ≥ v2MaxShortContentLength then
            Nat.max entrySize2 v2EntryOffsetHighLengthBitsEnd
          else entrySize2
        if m.2.2 ≥ v2MaxPackOffset then
          .error "pack offset is too high"
        else
          .ok { entryCount := sortedInfos.length
                entrySize := entrySize3
                keyLength :=
                  match sortedInfos with
                  | [] => -1
                  | i :: _ => (i.contentID.length : Int) }

/-- A content ID seen by the garbage collector: an optional one-character
class marker (empty for user content) and the hash body. -/
structure GCContentID where
  pfx : String
  body : String
deriving DecidableEq

/-- Modelled from the spec: the one-character marker of manifest-system
contents (`manifest.ContentPrefix`; the manifest package is not among the
provided sources). -/
def manifestContentPfx : String := "m"

/-- One content info as the GC sweep sees it. -/
structure GCContent where
  cid : GCContentID
  deleted : Bool
  packedLength : Nat
  timestampSeconds : Int
deriving DecidableEq

/-- `stats.CountSum`: a counter together with the summed byte size. -/
structure CountSum where
  count : Nat
  sum : Nat
deriving DecidableEq

/-- `CountSum.Add`: count one item of `n` bytes. -/
def CountSum.add (c : CountSum) (n : Nat) : CountSum :=
  { count := c.count + 1, sum := c.sum + n }

/-- The environment of one GC run: the mark set of referenced content IDs,
the delete flag, the repository clock, the safety parameter, and the outcomes
of the repository calls the sweep makes. -/
structure GCEnv where
  usedIDs : List GCContentID
  gcDelete : Bool
  now : Int
  minContentAge : Int
  undeleteOK : GCContentID → Bool
  deleteOK : GCContentID → Bool
  flushOK : Bool

/-- The observable state of the sweep: the five counter buckets and the
contents passed to `DeleteContent` and `UndeleteContent`, in call order. -/
structure SweepState where
  unused : CountSum
  inUse : CountSum
  system : CountSum
  tooRecent : CountSum
  undeleted : CountSum
  deleteCalls : List GCContent
  undeleteCalls : List GCContent
deriving DecidableEq

/-- The sweep's initial state. -/
def initSweepState : SweepState :=
  { unused := ⟨0, 0⟩, inUse := ⟨0, 0⟩, system := ⟨0, 0⟩, tooRecent := ⟨0, 0⟩,
    undeleted := ⟨0, 0⟩, deleteCalls := [], undeleteCalls := [] }

/-- One iteration of the sweep callback of `runInternal`: manifest-system
contents are counted and skipped; referenced contents are undeleted when
deleted and counted in-use; unreferenced contents younger than the safety
window are counted too-recent and skipped; the rest are counted unused and,
when `gcDelete` is set, deleted (flushing every 100000 unused contents).
The returned flag is false when a repository call failed, which aborts the
iteration. -/
def sweepStep (env : GCEnv) (st : SweepState) (ci : GCContent) : SweepState × Bool :=
  if ci.cid.pfx = manifestContentPfx then
    ({ st with system := st.system.add ci.packedLength }, true)
  else if ci.cid ∈ env.usedIDs then
    if ci.deleted then
      let st1 := { st with undeleteCalls := st.undeleteCalls ++ [ci] }
      if env.undeleteOK ci.cid then
        ({ st1 with undeleted := st1.undeleted.add ci.packedLength,
                    inUse := st1.inUse.add ci.packedLength }, true)
      else (st1, false)
    else ({ st with inUse := st.inUse.add ci.packedLength }, true)
  else if env.now - ci.timestampSeconds < env.minContentAge then
    ({ st with tooRecent := st.tooRecent.add ci.packedLength }, true)
  else
    let st1 := { st with unused := st.unused.add ci.packedLength }
    let cnt := st1.unused.count
    let r :=
      if env.gcDelete then
        ({ st1 with deleteCalls := st1.deleteCalls ++ [ci] }, env.deleteOK ci.cid)
      else (st1, true)
    if r.2 = false then (r.1, false)
    else if cnt % 100000 = 0 ∧ env.gcDelete = true ∧ env.flushOK = false then (r.1, false)
    else (r.1, true)

/-- `IterateContents` over the sweep callback: process contents in order,
stopping at the first failed repository call. -/
def sweep (env : GCEnv) : List GCContent → SweepState → SweepState × Bool
  | [], st => (st, true)
  | ci :: rest, st =>
    let r := sweepStep env st ci
    if r.2 then sweep env rest r.1 else (r.1, false)

/-- `runInternal` after the mark phase: run the sweep, then fail when the
iteration failed, when unused contents were found without `gcDelete`
(the would-delete error), or when the final flush fails. -/
def runInternal (env : GCEnv) (contents : List GCContent) : SweepState × Bool :=
  let r := sweep env contents initSweepState
  if r.2 = false then (r.1, false)
  else if r.1.unused.count > 0 ∧ env.gcDelete = false then (r.1, false)
  else (r.1, env.flushOK)

/-- A content counted as manifest-system by the sweep. -/
def isSystemContent (ci : GCContent) : Bool :=
  ci.cid.pfx = manifestContentPfx

/-- A content whose ID is in the mark set. -/
def isUsedContent (env : GCEnv) (ci : GCContent) : Bool :=
  ci.cid ∈ env.usedIDs

/-- A content younger than the GC safety window. -/
def isTooRecent (env : GCEnv) (ci : GCContent) : Bool :=
  env.now - ci.timestampSeconds < env.minContentAge

/-- A non-system content that is referenced and marked deleted: the sweep
undeletes these. -/
def gcUsedDeleted (env : GCEnv) (ci : GCContent) : Bool :=
  !isSystemContent ci && isUsedContent env ci && ci.deleted

/-- A non-system content that is referenced: the sweep counts these in-use. -/
def gcUsed (env : GCEnv) (ci : GCContent) : Bool :=
  !isSystemContent ci && isUsedContent env ci

/-- A non-system, unreferenced content younger than the safety window: the
sweep counts these too-recent and skips them. -/
def gcTooRecentB (env : GCEnv) (ci : GCContent) : Bool :=
  !isSystemContent ci && !isUsedContent env ci && isTooRecent env ci

/-- One failed-entry record of a directory summary (`fs.EntryWithError`). -/
structure EntryWithError where
  entryPath : String
  error : String
deriving DecidableEq

/-- The entry kinds distinguished by the directory-manifest builder. -/
inductive EntryType where
  | file
  | directory
  | symlink
deriving DecidableEq

/-- `fs.DirectorySummary`: the per-directory rollup statistics. -/
structure DirectorySummary where
  totalFileSize : Int
  totalFileCount : Int
  totalSymlinkCount : Int
  totalDirCount : Int
  maxModTime : Int
  incompleteReason : String
  fatalErrorCount : Int
  ignoredErrorCount : Int
  failedEntries : List EntryWithError
deriving DecidableEq

/-- `snapshot.DirEntry` restricted to the fields the builder reads. -/
structure DirEntry where
  name : String
  entryType : EntryType
  fileSize : Int
  modTime : Int
  dirSummary : Option DirectorySummary
  objectID : String
deriving DecidableEq

/-- The zero summary of a fresh builder. -/
def emptySummary : DirectorySummary :=
  { totalFileSize := 0, totalFileCount := 0, totalSymlinkCount := 0,
    totalDirCount := 0, maxModTime := 0, incompleteReason := "",
    fatalErrorCount := 0, ignoredErrorCount := 0, failedEntries := [] }

/-- `dirManifestBuilder`: the accumulated summary and entry list. -/
structure DirManifestBuilder where
  summary : DirectorySummary
  entries : List DirEntry
deriving DecidableEq

/-- A fresh builder. -/
def emptyBuilder : DirManifestBuilder :=
  { summary := emptySummary, entries := [] }

/-- `t.After(cur)` folded into a running maximum: take `t` exactly when it is
strictly later than `cur`. -/
def maxTime (cur t : Int) : Int :=
  if cur < t then t else cur

/-- `dirManifestBuilder.addEntry`: append the entry; bubble up its mod time;
update the counters per entry type; for a directory with a child summary, add
the child's counts, failed entries and mod time. -/
def addEntry (b : DirManifestBuilder) (de : DirEntry) : DirManifestBuilder :=
  let entries := b.entries ++ [de]
  let s0 := { b.summary with maxModTime := maxTime b.summary.maxModTime de.modTime }
  let s :=
    match de.entryType with
    | .symlink => { s0 with totalSymlinkCount := s0.totalSymlinkCount + 1 }
    | .file =>
      { s0 with totalFileCount := s0.totalFileCount + 1,
                totalFileSize := s0.totalFileSize + de.fileSize }
    | .directory =>
      match de.dirSummary with
      | none => s0
      | some cs =>
        { s0 with
            totalFileCount := s0.totalFileCount + cs.totalFileCount,
            totalFileSize := s0.totalFileSize + cs.totalFileSize,
            totalDirCount := s0.totalDirCount + cs.totalDirCount,
            fatalErrorCount := s0.fatalErrorCount + cs.fatalErrorCount,
            ignoredErrorCount := s0.ignoredErrorCount + cs.ignoredErrorCount,
            failedEntries := s0.failedEntries ++ cs.failedEntries,
            maxModTime := maxTime s0.maxModTime cs.maxModTime }
  { summary := s, entries := entries }

/-- `dirManifestBuilder.addFailedEntry`: count the error as ignored or fatal
and record the failed entry. -/
def addFailedEntry (b : DirManifestBuilder) (relPath : String) (isIgnoredError : Bool)
    (errMsg : String) : DirManifestBuilder :=
  let s0 :=
    if isIgnoredError then
      { b.summary with ignoredErrorCount := b.summary.ignoredErrorCount + 1 }
    else
      { b.summary with fatalErrorCount := b.summary.fatalErrorCount + 1 }
  { b with summary :=
      { s0 with failedEntries := s0.failedEntries ++ [⟨relPath, errMsg⟩] } }

/-- Ascending order on failed entries by path (`sortedTopFailures`). -/
def failedLE (a b : EntryWithError) : Prop :=
  a.entryPath ≤ b.entryPath

instance : DecidableRel failedLE :=
  fun a b => inferInstanceAs (Decidable (a.entryPath ≤ b.entryPath))

/-- `isDir` of the entry sort in `Build`. -/
def isDir (e : DirEntry) : Bool :=
  e.entryType = .directory

/-- The entry sort key of `Build`: directories (rank 0) before non-directories
(rank 1), then names ascending. -/
def entryKey (e : DirEntry) : Nat ×ₗ String :=
  toLex ((if isDir e then 0 else 1 : Nat), e.name)

/-- The entry order of `Build`. -/
def entryLE (a b : DirEntry) : Prop :=
  entryKey a ≤ entryKey b

instance : DecidableRel entryLE :=
  fun a b => inferInstanceAs (Decidable (entryKey a ≤ entryKey b))

/-- Modelled from the spec: the cap on failed-entry records per directory
summary (`fs.MaxFailedEntriesPerDirectorySummary`; the fs package is not among
the provided sources, which give the cap's value as 10). -/
def maxFailedEntriesPerDirectorySummary : Nat := 10

/-- `sortedTopFailures` as returned to its caller: the failed entries sorted
ascending by path and truncated to the cap. In Go the sort happens in place on
the shared backing array, which the embedding of `build` reflects. -/
def sortedTopFailures (entries : List EntryWithError) : List EntryWithError :=
  (List.insertionSort failedLE entries).take maxFailedEntriesPerDirectorySummary

/-- The stream-type header of directory manifests. -/
def directoryStreamType : String := "kopia:directory"

/-- `snapshot.DirManifest`. -/
structure DirManifest where
  streamType : String
  summary : DirectorySummary
  entries : List DirEntry
deriving DecidableEq

/-- `dirManifestBuilder.Build`, returning the manifest together with the
builder state it leaves behind. In Go the summary copy `s` is taken before
`sortedTopFailures` sorts the shared backing array in place, so the returned
summary sees the sorted but untruncated failed-entry list while only the
builder's retained summary gets the truncated slice; `sort.Slice` likewise
sorts `b.entries` in place, so the manifest and the builder share the sorted
entry list. -/
def build (b : DirManifestBuilder) (dirModTime : Int) (incompleteReason : String) :
    DirManifest × DirManifestBuilder :=
  let sortedFailed := List.insertionSort failedLE b.summary.failedEntries
  let sortedEntries := List.insertionSort entryLE b.entries
  let s : DirectorySummary :=
    { b.summary with
        totalDirCount := b.summary.totalDirCount + 1,
        maxModTime := if b.entries.isEmpty then dirModTime else b.summary.maxModTime,
        incompleteReason := incompleteReason,
        failedEntries := sortedFailed }
  ({ streamType := directoryStreamType, summary := s, entries := sortedEntries },
   { summary :=
       { b.summary with
           failedEntries := sortedFailed.take maxFailedEntriesPerDirectorySummary },
     entries := sortedEntries })

/-- One recorded operation on a builder: `addEntry` or `addFailedEntry`. -/
inductive BuilderOp where
  | entry (de : DirEntry)
  | failed (relPath : String) (isIgnored : Bool) (errMsg : String)

/-- Apply one operation to a builder. -/
def applyOp (b : DirManifestBuilder) : BuilderOp → DirManifestBuilder
  | .entry de => addEntry b de
  | .failed relPath isIgnored errMsg => addFailedEntry b relPath isIgnored errMsg

/-- Run a sequence of operations on a fresh builder. -/
def runOps (ops : List BuilderOp) : DirManifestBuilder :=
  ops.foldl applyOp emptyBuilder

/-- The five counters of a summary that the claim compares are nonnegative. -/
def summNonNeg (s : DirectorySummary) : Bool :=
  decide (0 ≤ s.totalFileCount) && decide (0 ≤ s.totalFileSize) &&
  decide (0 ≤ s.totalDirCount) && decide (0 ≤ s.fatalErrorCount) &&
  decide (0 ≤ s.ignoredErrorCount)

/-- Componentwise order on the five counters the claim compares. -/
def summLe (c s : DirectorySummary) : Prop :=
  c.totalFileCount ≤ s.totalFileCount ∧ c.totalFileSize ≤ s.totalFileSize ∧
  c.totalDirCount ≤ s.totalDirCount ∧ c.fatalErrorCount ≤ s.fatalErrorCount ∧
  c.ignoredErrorCount ≤ s.ignoredErrorCount

/-- Well-formedness of one builder operation as the uploader produces it: an
added entry has a nonnegative size, and an entry carrying a directory summary
is a directory entry whose summary counters are nonnegative. -/
def opOk : BuilderOp → Bool
  | .entry de =>
    decide (0 ≤ de.fileSize) &&
    (match de.dirSummary with
     | none => true
     | some cs => summNonNeg cs && decide (de.entryType = EntryType.directory))
  | .failed _ _ _ => true

/-- The builder invariant: the accumulated counters are nonnegative and
dominate every recorded child summary, and the accumulated max mod-time
dominates every child's. -/
def builderInv (b : DirManifestBuilder) : Prop :=
  summNonNeg b.summary = true ∧
  ∀ c ∈ b.entries, ∀ cs, c.dirSummary = some cs →
    summLe cs b.summary ∧ cs.maxModTime ≤ b.summary.maxModTime

/-- `Uploader.effectiveParallelFileReads`: the user's `ParallelUploads` when it
is between 1 and the limit, otherwise the limit, where the limit is the
policy's `MaxParallelFileReads` when set and `numCPU` otherwise. -/
def effectiveParallelFileReads (parallelUploads : Int)
    (maxParallelFileReads : Option Int) (numCPU : Int) : Int :=
  let maxV := maxParallelFileReads.getD numCPU
  if parallelUploads < 1 ∨ parallelUploads > maxV then maxV
  else parallelUploads

/-- The incomplete reason recorded for a user-canceled upload. -/
def IncompleteReasonCanceled : String := "canceled"

/-- The incomplete reason recorded when the byte budget was exceeded. -/
def IncompleteReasonLimitReached : String := "limit reached"

/-- The cancellation-relevant state of an `Uploader`: the atomic canceled flag,
the written-byte counter and the configured byte budget. -/
structure UploaderState where
  canceled : Bool
  totalWrittenBytes : Int
  maxUploadBytes : Int
deriving DecidableEq

/-- `Uploader.incompleteReason`: the canceled flag wins, then the byte budget
(`MaxUploadBytes > 0` and strictly exceeded), else empty. -/
def incompleteReason (u : UploaderState) : String :=
  if u.canceled then IncompleteReasonCanceled
  else if 0 < u.maxUploadBytes ∧ u.maxUploadBytes < u.totalWrittenBytes then
    IncompleteReasonLimitReached
  else ""

/-- `Uploader.IsCanceled`: the incomplete reason is nonempty. -/
def isCanceled (u : UploaderState) : Bool :=
  decide (incompleteReason u ≠ "")

/-- State changes observable by the cancellation logic during an upload. -/
inductive UploadEvent where
  | writeBytes (n : Int)
  | cancel

/-- Apply one event: the copy loop atomically adds written bytes; `Cancel`
sets the canceled flag. -/
def applyEvent (u : UploaderState) : UploadEvent → UploaderState
  | .writeBytes n => { u with totalWrittenBytes := u.totalWrittenBytes + n }
  | .cancel => { u with canceled := true }

/-- Run a sequence of events. -/
def runEvents (u : UploaderState) (evs : List UploadEvent) : UploaderState :=
  evs.foldl applyEvent u

/-- The first nonempty incomplete reason observable along a run, formalizing
the claim's "first of the two reasons that was observed". -/
def firstObservedReason : UploaderState → List UploadEvent → String
  | u, [] => incompleteReason u
  | u, e :: rest =>
    if incompleteReason u ≠ "" then incompleteReason u
    else firstObservedReason (applyEvent u e) rest

/-- The state of a `committedContentIndex` relevant to `use`: the deletion
watermark, the `inUse` map from index-blob IDs to open indexes (indexes
abstracted as handles), the merged list and the revision counter. -/
structure CCIState where
  deletionWatermark : Int
  inUse : List (String × Nat)
  merged : List Nat
  rev : Int
deriving DecidableEq

/-- `committedContentIndex.indexFilesChanged`: true when the requested file
list has a different size than the in-use map or names a file not in it. -/
def indexFilesChanged (inUse : List (String × Nat)) (indexFiles : List String) : Bool :=
  if indexFiles.length ≠ inUse.length then true
  else indexFiles.any (fun f => (inUse.lookup f).isNone)

/-- Insert into an association list, overwriting an existing key. -/
def assocInsert (m : List (String × Nat)) (k : String) (v : Nat) : List (String × Nat) :=
  if (m.lookup k).isSome then m.map (fun p => if p.1 = k then (k, v) else p)
  else m ++ [(k, v)]

/-- The opening loop of `committedContentIndex.merge`: open every requested
index in order, accumulating the merged list and the used map; fail at the
first index that cannot be opened. -/
def mergeOpen (openIndex : String → Option Nat) (indexFiles : List String) :
    Option (List Nat × List (String × Nat)) :=
  indexFiles.foldl
    (fun acc e =>
      match acc with
      | none => none
      | some mu =>
        match openIndex e with
        | none => none
        | some ndx => some (mu.1 ++ [ndx], assocInsert mu.2 e ndx))
    (some ([], []))

/-- `committedContentIndex.merge`: open all requested indexes, then combine
small indexes (the combining step abstracted by `combine`, which fails when
iterating, building or opening the combined index fails). -/
def mergeModel (openIndex : String → Option Nat) (combine : List Nat → Option (List Nat))
    (indexFiles : List String) : Option (List Nat × List (String × Nat)) :=
  match mergeOpen openIndex indexFiles with
  | none => none
  | some mu =>
    match combine mu.1 with
    | none => none
    | some m2 => some (m2, mu.2)

/-- `committedContentIndex.use`: under the lock, first set the deletion
watermark to the new value; return early when the index-file set is unchanged;
otherwise merge, and only on success swap `merged` and `inUse` and bump the
revision counter. The trailing `expireUnused` cache call is omitted: its error
is only logged and it touches no state of this structure. -/
def useIndexes (openIndex : String → Option Nat) (combine : List Nat → Option (List Nat))
    (st : CCIState) (indexFiles : List String) (ignoreDeletedBefore : Int) :
    Except String Unit × CCIState :=
  let st1 := { st with deletionWatermark := ignoreDeletedBefore }
  if indexFilesChanged st1.inUse indexFiles = false then (.ok (), st1)
  else
    match mergeModel openIndex combine indexFiles with
    | none => (.error "unable to open pack index", st1)
    | some mu =>
      (.ok (), { st1 with merged := mu.1, inUse := mu.2, rev := st1.rev + 1 })

/-- Concrete merged-index input: entry for `aabbcc` at timestamp 1 in pack
`xx`. -/
def wInfoXX : Info :=
  { contentID := "aabbcc", timestampSeconds := 1, packBlobID := "xx",
    packOffset := 11, packedLength := 0, originalLength := 0, deleted := false }

/-- Concrete merged-index input: entry for `aabbcc` at timestamp 3 in pack
`yy`. -/
def wInfoYY : Info :=
  { contentID := "aabbcc", timestampSeconds := 3, packBlobID := "yy",
    packOffset := 33, packedLength := 0, originalLength := 0, deleted := false }

/-- Concrete merged-index input: entry for `aabbcc` at timestamp 2 in pack
`zz`. -/
def wInfoZZ : Info :=
  { contentID := "aabbcc", timestampSeconds := 2, packBlobID := "zz",
    packOffset := 22, packedLength := 0, originalLength := 0, deleted := false }

/-- Concrete underlying index holding `wInfoXX`. -/
def wIx1 : Index :=
  fun cid => if cid = "aabbcc" then some wInfoXX else none

/-- Concrete underlying index holding `wInfoYY`. -/
def wIx2 : Index :=
  fun cid => if cid = "aabbcc" then some wInfoYY else none

/-- Concrete underlying index holding `wInfoZZ`. -/
def wIx3 : Index :=
  fun cid => if cid = "aabbcc" then some wInfoZZ else none

/-- A concrete merged index over three underlying indexes. -/
def wMerged : List Index := [wIx1, wIx2, wIx3]

/-- The same underlying indexes given in a different order. -/
def wMergedPerm : List Index := [wIx2, wIx1, wIx3]

/-- GC input: a deleted manifest-system content that is also in the mark set. -/
def gcCtrContent : GCContent :=
  { cid := { pfx := "m", body := "aa" }, deleted := true, packedLength := 5,
    timestampSeconds := 0 }

/-- GC environment referencing `gcCtrContent` with `gcDelete` set and every
repository call succeeding. -/
def gcCtrEnv : GCEnv :=
  { usedIDs := [gcCtrContent.cid], gcDelete := true, now := 1000,
    minContentAge := 0, undeleteOK := fun _ => true, deleteOK := fun _ => true,
    flushOK := true }

/-- GC input: a deleted, referenced user content (no prefix). -/
def gcWContent : GCContent :=
  { cid := { pfx := "", body := "aabbcc" }, deleted := true, packedLength := 5,
    timestampSeconds := 0 }

/-- GC environment referencing `gcWContent` with `gcDelete` set and every
repository call succeeding. -/
def gcWEnv : GCEnv :=
  { usedIDs := [gcWContent.cid], gcDelete := true, now := 1000,
    minContentAge := 0, undeleteOK := fun _ => true, deleteOK := fun _ => true,
    flushOK := true }

/-- A builder that accumulated eleven failed entries, one more than the cap. -/
def c4Builder : DirManifestBuilder :=
  runOps [.failed "p00" true "e", .failed "p01" true "e", .failed "p02" true "e",
          .failed "p03" true "e", .failed "p04" true "e", .failed "p05" true "e",
          .failed "p06" true "e", .failed "p07" true "e", .failed "p08" true "e",
          .failed "p09" true "e", .failed "p10" true "e"]

/-- A child directory summary with one file of size 2. -/
def wChildSummary : DirectorySummary :=
  { totalFileSize := 2, totalFileCount := 1, totalSymlinkCount := 0,
    totalDirCount := 1, maxModTime := 5, incompleteReason := "",
    fatalErrorCount := 0, ignoredErrorCount := 0, failedEntries := [] }

/-- A directory entry carrying `wChildSummary`. -/
def wDirEntry : DirEntry :=
  { name := "sub", entryType := .directory, fileSize := 0, modTime := 4,
    dirSummary := some wChildSummary, objectID := "d1" }

/-- A plain file entry. -/
def wFileEntry : DirEntry :=
  { name := "file", entryType := .file, fileSize := 3, modTime := 6,
    dirSummary := none, objectID := "f1" }

/-- A concrete operation sequence: add the directory, the file, and one failed
entry. -/
def wOps : List BuilderOp :=
  [.entry wDirEntry, .entry wFileEntry, .failed "bad" false "boom"]

/-- An uploader that exceeded its byte budget before the user canceled. -/
def c8State : UploaderState :=
  { canceled := false, totalWrittenBytes := 0, maxUploadBytes := 5 }

/-- Events: ten bytes are written (exceeding the budget of five), then the
user cancels. -/
def c8Events : List UploadEvent :=
  [.writeBytes 10, .cancel]

/-- An index opener that fails on every blob. -/
def wOpenFail : String → Option Nat := fun _ => none

/-- A combine step that passes the merged list through. -/
def wCombineID : List Nat → Option (List Nat) := fun l => some l

/-- A committed-content-index state with an empty in-use map. -/
def wCCI : CCIState :=
  { deletionWatermark := 3, inUse := [], merged := [], rev := 7 }

/-- An entry is hidden exactly when it is deleted with a timestamp not after
the watermark. -/
theorem shouldIgnore_eq_true (i : Info) (wm : Int) :
    shouldIgnore i wm = true ↔ i.deleted = true ∧ i.timestampSeconds ≤ wm := by
  cases h : i.deleted
  · simp [shouldIgnore, h]
  · simp [shouldIgnore, h]

/-- C5: `committedContentIndex.getContent` returns the not-found error exactly
when the merged view yields neither an entry nor an error, or the entry found
is deleted with a timestamp not after the deletion watermark; whenever an
entry is found and not so hidden, that entry is returned (in particular a
deleted entry with timestamp strictly after the watermark is returned). -/
theorem getContent_spec (merged : String → Option Info × Option String)
    (deletionWatermark : Int) (contentID : String) :
    (getContent merged deletionWatermark contentID = .error .notFound ↔
      (merged contentID = (none, none) ∨
        ∃ i, (merged contentID).fst = some i ∧ i.deleted = true ∧
          i.timestampSeconds ≤ deletionWatermark)) ∧
    (∀ i, (merged contentID).fst = some i →
      ¬(i.deleted = true ∧ i.timestampSeconds ≤ deletionWatermark) →
      getContent merged deletionWatermark contentID = .ok i) := by
  rcases h : merged contentID with ⟨fst, snd⟩
  cases fst with
  | none =>
    cases snd with
    | none => simp [getContent, h]
    | some msg => simp [getContent, h]
  | some info =>
    have hR : (((some info, snd) : Option Info × Option String) = (none, none) ∨
        ∃ i, ((some info, snd) : Option Info × Option String).1 = some i ∧
          i.deleted = true ∧ i.timestampSeconds ≤ deletionWatermark) ↔
        (info.deleted = true ∧ info.timestampSeconds ≤ deletionWatermark) := by
      simp
    by_cases hP : info.deleted = true ∧ info.timestampSeconds ≤ deletionWatermark
    · have hsi : shouldIgnore info deletionWatermark = true :=
        (shouldIgnore_eq_true info deletionWatermark).mpr hP
      refine ⟨⟨fun _ => hR.mpr hP, fun _ => by simp [getContent, h, hsi]⟩, ?_⟩
      intro i hi hni
      have hii : info = i := by simpa using hi
      exact absurd (hii ▸ hP) hni
    · have hsi : shouldIgnore info deletionWatermark = false := by
        cases hb : shouldIgnore info deletionWatermark
        · rfl
        · exact absurd ((shouldIgnore_eq_true info deletionWatermark).mp hb) hP
      refine ⟨⟨fun hc => ?_, fun hrhs => absurd (hR.mp hrhs) hP⟩, ?_⟩
      · simp [getContent, h, hsi] at hc
      · intro i hi _
        have hii : info = i := by simpa using hi
        rw [← hii]
        simp [getContent, h, hsi]

/-- The first components of the one-pass maxima fold are the three separate
maxima folds. -/
theorem maxContentLengths_comp (l : List Info) :
    ∀ a : Nat × Nat × Nat,
      l.foldl
        (fun acc i =>
          (Nat.max acc.1 i.packedLength,
           Nat.max acc.2.1 i.originalLength,
           Nat.max acc.2.2 i.packOffset)) a
      = (l.foldl (fun x i => Nat.max x i.packedLength) a.1,
         l.foldl (fun x i => Nat.max x i.originalLength) a.2.1,
         l.foldl (fun x i => Nat.max x i.packOffset) a.2.2) := by
  induction l with
  | nil => intro a; rfl
  | cons i t ih => intro a; simp [List.foldl_cons, ih]

/-- A running-maximum fold stays below a bound exactly when the seed and all
projected values do. -/
theorem foldl_max_lt_iff (g : Info → Nat) (l : List Info) :
    ∀ a b : Nat,
      l.foldl (fun x i => Nat.max x (g i)) a < b ↔ a < b ∧ ∀ i ∈ l, g i < b := by
  induction l with
  | nil => intro a b; simp
  | cons i t ih =>
    intro a b
    simp only [List.foldl_cons, ih, Nat.max_lt, List.forall_mem_cons]
    tauto

/-- A running-maximum fold from seed 0 stays below a positive bound exactly
when all projected values do. -/
theorem foldl_max_lt_iff0 (g : Info → Nat) (l : List Info) (b : Nat) (hb : 0 < b) :
    l.foldl (fun x i => Nat.max x (g i)) 0 < b ↔ ∀ i ∈ l, g i < b := by
  rw [foldl_max_lt_iff]
  exact and_iff_right hb

/-- C6: building a v2 pack index succeeds exactly when there are at most 255
unique format descriptors, at most 2^24 unique pack blob IDs, every entry's
packed and original lengths are below 2^28, and every pack offset is below
2^30; outside these bounds `newIndexBuilderV2` fails with an error before
`buildV2` writes anything. -/
theorem newIndexBuilderV2_spec (sortedInfos : List Info) :
    (∃ b, newIndexBuilderV2 sortedInfos = .ok b) ↔
      ((uniqueFormats sortedInfos).length ≤ v2MaxFormatCount ∧
       (uniquePackIDs sortedInfos).length ≤ v2MaxUniquePackIDCount ∧
       ∀ i ∈ sortedInfos,
         i.packedLength < v2MaxContentLength ∧ i.originalLength < v2MaxContentLength ∧
         i.packOffset < v2MaxPackOffset) := by
  have hm : maxContentLengths sortedInfos
      = (sortedInfos.foldl (fun x i => Nat.max x i.packedLength) 0,
         sortedInfos.foldl (fun x i => Nat.max x i.originalLength) 0,
         sortedInfos.foldl (fun x i => Nat.max x i.packOffset) 0) :=
    maxContentLengths_comp sortedInfos (0, 0, 0)
  have h1 : (maxContentLengths sortedInfos).1 < v2MaxContentLength ↔
      ∀ i ∈ sortedInfos, i.packedLength < v2MaxContentLength := by
    simp only [hm]
    exact foldl_max_lt_iff0 (fun i => i.packedLength) sortedInfos v2MaxContentLength (by decide)
  have h2 : (maxContentLengths sortedInfos).2.1 < v2MaxContentLength ↔
      ∀ i ∈ sortedInfos, i.originalLength < v2MaxContentLength := by
    simp only [hm]
    exact foldl_max_lt_iff0 (fun i => i.originalLength) sortedInfos v2MaxContentLength (by decide)
  have h3 : (maxContentLengths sortedInfos).2.2 < v2MaxPackOffset ↔
      ∀ i ∈ sortedInfos, i.packOffset < v2MaxPackOffset := by
    simp only [hm]
    exact foldl_max_lt_iff0 (fun i => i.packOffset) sortedInfos v2MaxPackOffset (by decide)
  by_cases hf : (uniqueFormats sortedInfos).length > v2MaxFormatCount
  · simp only [newIndexBuilderV2, hf, if_true]
    constructor
    · rintro ⟨b, hb⟩; exact absurd hb (by simp)
    · rintro ⟨hc, -⟩; omega
  · by_cases hp : (uniquePackIDs sortedInfos).length > v2MaxUniquePackIDCount
    · simp only [newIndexBuilderV2, hf, if_false, hp, if_true]
      constructor
      · rintro ⟨b, hb⟩; exact absurd hb (by simp)
      · rintro ⟨-, hc, -⟩; omega
    · by_cases hl : (maxContentLengths sortedInfos).1 ≥ v2MaxContentLength ∨
          (maxContentLengths sortedInfos).2.1 ≥ v2MaxContentLength
      · simp only [newIndexBuilderV2, hf, hp, if_false, hl, if_true]
        constructor
        · rintro ⟨b, hb⟩; exact absurd hb (by simp)
        · rintro ⟨-, -, hc⟩
          rcases hl with hl | hl
          · exact absurd ((h1.mpr (fun i hi => (hc i hi).1)).trans_le hl) (lt_irrefl _)
          · exact absurd ((h2.mpr (fun i hi => (hc i hi).2.1)).trans_le hl) (lt_irrefl _)
      · by_cases ho : (maxContentLengths sortedInfos).2.2 ≥ v2MaxPackOffset
        · simp only [newIndexBuilderV2, hf, hp, hl, if_false, ho, if_true]
          constructor
          · rintro ⟨b, hb⟩; exact absurd hb (by simp)
          · rintro ⟨-, -, hc⟩
            exact absurd ((h3.mpr (fun i hi => (hc i hi).2.2)).trans_le ho) (lt_irrefl _)
        · simp only [newIndexBuilderV2, hf, hp, hl, ho, if_false]
          push_neg at hl ho
          constructor
          · intro _
            exact ⟨by omega, by omega,
              fun i hi => ⟨h1.mp hl.1 i hi, h2.mp hl.2 i hi, h3.mp ho i hi⟩⟩
          · intro _
            exact ⟨_, rfl⟩

/-- C7 (amended): the effective parallel file-read count equals
`min(ParallelUploads, L)` when `ParallelUploads ≥ 1` and `L` otherwise, where
`L` is the policy's `MaxParallelFileReads` when set and `numCPU` otherwise; in
particular it never exceeds `L` and never exceeds `ParallelUploads` when that
is at least 1 (but it is not bounded by `numCPU` when the policy sets a higher
limit). -/
theorem effectiveParallelFileReads_clamp (parallelUploads : Int)
    (maxParallelFileReads : Option Int) (numCPU : Int) :
    (1 ≤ parallelUploads →
      effectiveParallelFileReads parallelUploads maxParallelFileReads numCPU
        = min parallelUploads (maxParallelFileReads.getD numCPU)) ∧
    (parallelUploads < 1 →
      effectiveParallelFileReads parallelUploads maxParallelFileReads numCPU
        = maxParallelFileReads.getD numCPU) ∧
    effectiveParallelFileReads parallelUploads maxParallelFileReads numCPU
      ≤ maxParallelFileReads.getD numCPU ∧
    (1 ≤ parallelUploads →
      effectiveParallelFileReads parallelUploads maxParallelFileReads numCPU
        ≤ parallelUploads) := by
  simp only [effectiveParallelFileReads, min_def]
  split_ifs <;>
    refine ⟨fun hp => ?_, fun hp => ?_, ?_, fun hp => ?_⟩ <;> omega

/-- C7 counterexample: with `ParallelUploads = 6`, `MaxParallelFileReads`
set to 8 and 4 CPUs, the effective parallelism is 6, which differs from
`min(6, 8, 4) = 4` and exceeds the CPU count. -/
theorem effectiveParallelFileReads_not_min :
    effectiveParallelFileReads 6 (some 8) 4 = 6 ∧
    min 6 (min 8 (4 : Int)) = 4 ∧
    ¬(effectiveParallelFileReads 6 (some 8) 4 ≤ 4) := by
  decide

/-- C8 (amended): `IsCanceled` is true exactly when the user requested
cancellation or the byte budget is set and strictly exceeded; the
`IncompleteReason` recorded at the end of `Upload` is recomputed from the
final state with the canceled flag taking priority — `"canceled"` whenever the
flag is set, `"limit reached"` only when the flag is clear and the budget is
exceeded — rather than remembering the first reason observed. -/
theorem isCanceled_spec (u : UploaderState) :
    (isCanceled u = true ↔
      (u.canceled = true ∨
        (0 < u.maxUploadBytes ∧ u.maxUploadBytes < u.totalWrittenBytes))) ∧
    (u.canceled = true → incompleteReason u = IncompleteReasonCanceled) ∧
    (u.canceled = false → 0 < u.maxUploadBytes →
      u.maxUploadBytes < u.totalWrittenBytes →
      incompleteReason u = IncompleteReasonLimitReached) := by
  have hc : IncompleteReasonCanceled ≠ "" := by decide
  have hl : IncompleteReasonLimitReached ≠ "" := by decide
  cases h : u.canceled <;>
    by_cases hb : 0 < u.maxUploadBytes ∧ u.maxUploadBytes < u.totalWrittenBytes <;>
      simp [isCanceled, incompleteReason, h, hb, hc, hl]
  exact fun h1 h2 => absurd ⟨h1, h2⟩ hb

/-- C8 counterexample: the byte budget (5) is exceeded first (10 bytes are
written), then the user cancels; the reason recorded from the final state is
`"canceled"`, not the first observed reason `"limit reached"`. -/
theorem incompleteReason_not_first_observed :
    firstObservedReason c8State c8Events = IncompleteReasonLimitReached ∧
    incompleteReason (runEvents c8State c8Events) = IncompleteReasonCanceled ∧
    IncompleteReasonLimitReached ≠ IncompleteReasonCanceled := by
  decide

/-- C10: `use` stores the new deletion watermark before checking whether the
index-file set changed and before opening any index; hence when the merge
(opening or combining) fails, `use` returns the error with `merged`, `inUse`
and the revision counter unchanged while the deletion watermark has already
been replaced — the operation is not atomic on error with respect to the
watermark. -/
theorem useIndexes_error_keeps_state (openIndex : String → Option Nat)
    (combine : List Nat → Option (List Nat)) (st : CCIState)
    (indexFiles : List String) (wm : Int)
    (hchanged : indexFilesChanged st.inUse indexFiles = true)
    (hfail : mergeModel openIndex combine indexFiles = none) :
    (∃ e, (useIndexes openIndex combine st indexFiles wm).fst = .error e) ∧
    (useIndexes openIndex combine st indexFiles wm).snd.deletionWatermark = wm ∧
    (useIndexes openIndex combine st indexFiles wm).snd.merged = st.merged ∧
    (useIndexes openIndex combine st indexFiles wm).snd.inUse = st.inUse ∧
    (useIndexes openIndex combine st indexFiles wm).snd.rev = st.rev := by
  simp [useIndexes, hchanged, hfail]

/-- C10 witness: with an empty in-use map, one requested index blob and an
opener that fails, `use` errors, the revision and views are unchanged, and the
watermark is already the new value. -/
theorem useIndexes_error_keeps_state_witness :
    (∃ e, (useIndexes wOpenFail wCombineID wCCI ["a"] 9).fst = .error e) ∧
    (useIndexes wOpenFail wCombineID wCCI ["a"] 9).snd.deletionWatermark = 9 ∧
    (useIndexes wOpenFail wCombineID wCCI ["a"] 9).snd.merged = wCCI.merged ∧
    (useIndexes wOpenFail wCombineID wCCI ["a"] 9).snd.inUse = wCCI.inUse ∧
    (useIndexes wOpenFail wCombineID wCCI ["a"] 9).snd.rev = wCCI.rev :=
  useIndexes_error_keeps_state wOpenFail wCombineID wCCI ["a"] 9 (by decide) rfl

/-- The merged fold equals picking the best among the candidates. -/
theorem mergedFold_eq_pickBestFrom (contentID : String) :
    ∀ (m : List Index) (b : Option Info),
      m.foldl (fun best ndx =>
        match ndx contentID with
        | none => best
        | some i => pickBetter best i) b
      = pickBestFrom b (mergedCandidates m contentID) := by
  intro m
  induction m with
  | nil => intro b; rfl
  | cons ndx t ih =>
    intro b
    cases hx : ndx contentID with
    | none =>
      simp only [List.foldl_cons, hx, mergedCandidates, List.filterMap_cons]
      exact ih b
    | some i =>
      simp only [List.foldl_cons, hx, mergedCandidates, List.filterMap_cons]
      simpa [pickBestFrom] using ih (pickBetter b i)

/-- `mergedGetInfo` picks the best among the candidates. -/
theorem mergedGetInfo_eq (m : List Index) (contentID : String) :
    mergedGetInfo m contentID = pickBestFrom none (mergedCandidates m contentID) :=
  mergedFold_eq_pickBestFrom contentID m none

/-- Folding `pickBetter` from a seed yields a candidate (or the seed) whose key
dominates the seed's and every candidate's key. -/
theorem pickBestFrom_some_spec :
    ∀ (l : List Info) (b : Info),
      ∃ e, pickBestFrom (some b) l = some e ∧ (e = b ∨ e ∈ l) ∧
        infoKey b ≤ infoKey e ∧ ∀ c ∈ l, infoKey c ≤ infoKey e := by
  intro l
  induction l with
  | nil => intro b; exact ⟨b, rfl, Or.inl rfl, le_refl _, by simp⟩
  | cons i t ih =>
    intro b
    by_cases hlt : infoKey b < infoKey i
    · have hstep : pickBestFrom (some b) (i :: t) = pickBestFrom (some i) t := by
        simp [pickBestFrom, List.foldl_cons, pickBetter, hlt]
      obtain ⟨e, he, hm, hbe, hall⟩ := ih i
      refine ⟨e, by rw [hstep]; exact he, ?_, le_trans (le_of_lt hlt) hbe, ?_⟩
      · rcases hm with rfl | hm
        · exact Or.inr (List.mem_cons_self _ _)
        · exact Or.inr (List.mem_cons_of_mem _ hm)
      · intro c hc
        rcases List.mem_cons.mp hc with rfl | hc
        · exact hbe
        · exact hall c hc
    · have hile : infoKey i ≤ infoKey b := le_of_not_lt hlt
      have hstep : pickBestFrom (some b) (i :: t) = pickBestFrom (some b) t := by
        simp [pickBestFrom, List.foldl_cons, pickBetter, hlt]
      obtain ⟨e, he, hm, hbe, hall⟩ := ih b
      refine ⟨e, by rw [hstep]; exact he, ?_, hbe, ?_⟩
      · rcases hm with rfl | hm
        · exact Or.inl rfl
        · exact Or.inr (List.mem_cons_of_mem _ hm)
      · intro c hc
        rcases List.mem_cons.mp hc with rfl | hc
        · exact le_trans hile hbe
        · exact hall c hc

/-- C1: for a merged index over any finite set of underlying indexes and a
content ID whose candidate entries have pairwise distinct precedence keys and
come from more than one index, `GetInfo` returns the candidate whose key —
greatest timestamp first, then non-deleted over deleted, then greatest pack
blob ID — dominates all candidates, and the result is the same for every
permutation of the underlying indexes. -/
theorem mergedGetInfo_consistent (m m' : List Index) (contentID : String)
    (hperm : m.Perm m')
    (hmulti : 2 ≤ (mergedCandidates m contentID).length)
    (hinj : ∀ a ∈ mergedCandidates m contentID, ∀ b ∈ mergedCandidates m contentID,
      infoKey a = infoKey b → a = b) :
    ∃ e, mergedGetInfo m contentID = some e ∧ mergedGetInfo m' contentID = some e ∧
      e ∈ mergedCandidates m contentID ∧
      ∀ c ∈ mergedCandidates m contentID, infoKey c ≤ infoKey e := by
  have hpermc : (mergedCandidates m contentID).Perm (mergedCandidates m' contentID) :=
    hperm.filterMap _
  obtain ⟨a, l, hal⟩ : ∃ a l, mergedCandidates m contentID = a :: l := by
    cases hc : mergedCandidates m contentID with
    | nil => exact absurd hmulti (by rw [hc]; decide)
    | cons a l => exact ⟨a, l, rfl⟩
  obtain ⟨a', l', hal'⟩ : ∃ a' l', mergedCandidates m' contentID = a' :: l' := by
    cases hc : mergedCandidates m' contentID with
    | nil =>
      have hlen := hpermc.length_eq
      rw [hal, hc] at hlen
      simp at hlen
    | cons a' l' => exact ⟨a', l', rfl⟩
  have h1 : mergedGetInfo m contentID = pickBestFrom (some a) l := by
    rw [mergedGetInfo_eq, hal]; rfl
  have h1' : mergedGetInfo m' contentID = pickBestFrom (some a') l' := by
    rw [mergedGetInfo_eq, hal']; rfl
  obtain ⟨e, he, hm1, hae, hall⟩ := pickBestFrom_some_spec l a
  obtain ⟨e', he', hm1', hae', hall'⟩ := pickBestFrom_some_spec l' a'
  have hemem : e ∈ mergedCandidates m contentID := by
    rw [hal]
    rcases hm1 with rfl | hm1
    · exact List.mem_cons_self _ _
    · exact List.mem_cons_of_mem _ hm1
  have hemem' : e' ∈ mergedCandidates m' contentID := by
    rw [hal']
    rcases hm1' with rfl | hm1'
    · exact List.mem_cons_self _ _
    · exact List.mem_cons_of_mem _ hm1'
  have hallm : ∀ c ∈ mergedCandidates m contentID, infoKey c ≤ infoKey e := by
    intro c hc
    rw [hal] at hc
    rcases List.mem_cons.mp hc with rfl | hc
    · exact hae
    · exact hall c hc
  have hallm' : ∀ c ∈ mergedCandidates m' contentID, infoKey c ≤ infoKey e' := by
    intro c hc
    rw [hal'] at hc
    rcases List.mem_cons.mp hc with rfl | hc
    · exact hae'
    · exact hall' c hc
  have hkey : infoKey e = infoKey e' :=
    le_antisymm (hallm' e (hpermc.subset hemem)) (hallm e' (hpermc.symm.subset hemem'))
  have hee' : e = e' := hinj e hemem e' (hpermc.symm.subset hemem') hkey
  refine ⟨e, by rw [h1]; exact he, ?_, hemem, hallm⟩
  rw [h1', hee']
  exact he'

/-- C1 witness: three indexes carrying `aabbcc` at timestamps 1, 3, 2 in packs
`xx`, `yy`, `zz`; under the original and a swapped order, `GetInfo` returns
the same dominating entry. -/
theorem mergedGetInfo_consistent_witness :
    ∃ e, mergedGetInfo wMerged "aabbcc" = some e ∧
      mergedGetInfo wMergedPerm "aabbcc" = some e ∧
      e ∈ mergedCandidates wMerged "aabbcc" ∧
      ∀ c ∈ mergedCandidates wMerged "aabbcc", infoKey c ≤ infoKey e :=
  mergedGetInfo_consistent wMerged wMergedPerm "aabbcc"
    (List.Perm.swap wIx2 wIx1 [wIx3]) (by decide) (by decide)

/-- In the unreferenced-and-old branch, one sweep step only touches the
`unused` counter and the delete-call list. -/
theorem sweepStep_unref (env : GCEnv) (st : SweepState) (c : GCContent)
    (hsys : ¬(c.cid.pfx = manifestContentPfx))
    (hused : ¬(c.cid ∈ env.usedIDs))
    (hrec : ¬(env.now - c.timestampSeconds < env.minContentAge)) :
    (sweepStep env st c).fst.undeleteCalls = st.undeleteCalls ∧
    (sweepStep env st c).fst.undeleted = st.undeleted ∧
    (sweepStep env st c).fst.inUse = st.inUse ∧
    (sweepStep env st c).fst.tooRecent = st.tooRecent := by
  simp only [sweepStep, if_neg hsys, if_neg hused, if_neg hrec]
  by_cases hgc : env.gcDelete = true <;> simp [hgc] <;> split_ifs <;> simp

/-- One sweep step either leaves the delete-call list alone or appends the
current content, and the latter only for an unreferenced, non-system content
outside the safety window. -/
theorem sweepStep_deleteCalls (env : GCEnv) (st : SweepState) (c : GCContent) :
    (sweepStep env st c).fst.deleteCalls = st.deleteCalls ∨
    ((sweepStep env st c).fst.deleteCalls = st.deleteCalls ++ [c] ∧
      isSystemContent c = false ∧ isUsedContent env c = false ∧
      isTooRecent env c = false) := by
  by_cases hsys : c.cid.pfx = manifestContentPfx
  · left; simp [sweepStep, hsys]
  · by_cases hused : c.cid ∈ env.usedIDs
    · cases hdc : c.deleted
      · left; simp [sweepStep, hsys, hused, hdc]
      · by_cases huok : env.undeleteOK c.cid = true
        · left; simp [sweepStep, hsys, hused, hdc, huok]
        · left; simp [sweepStep, hsys, hused, hdc, huok]
    · by_cases hrec : env.now - c.timestampSeconds < env.minContentAge
      · left; simp [sweepStep, hsys, hused, hrec]
      · by_cases hgc : env.gcDelete = true
        · right
          refine ⟨?_, by simp [isSystemContent, hsys], by simp [isUsedContent, hused],
            by simp [isTooRecent, hrec]⟩
          simp only [sweepStep, if_neg hsys, if_neg hused, if_neg hrec]
          simp [hgc]
          try split_ifs <;> rfl
        · left
          simp only [sweepStep, if_neg hsys, if_neg hused, if_neg hrec]
          simp [hgc]
          try split_ifs <;> rfl

/-- Every content passed to `DeleteContent` during a sweep (also an aborted
one) is non-system, unreferenced and outside the safety window. -/
theorem sweep_deleteCalls_spec (env : GCEnv) :
    ∀ (l : List GCContent) (st : SweepState),
      ∀ ci ∈ (sweep env l st).fst.deleteCalls,
        ci ∈ st.deleteCalls ∨
          (isSystemContent ci = false ∧ isUsedContent env ci = false ∧
            isTooRecent env ci = false) := by
  intro l
  induction l with
  | nil => intro st ci hci; exact Or.inl hci
  | cons c t ih =>
    intro st ci hci
    have hunf : sweep env (c :: t) st =
        (if (sweepStep env st c).2 = true then sweep env t (sweepStep env st c).1
         else ((sweepStep env st c).1, false)) := rfl
    rw [hunf] at hci
    by_cases hok : (sweepStep env st c).2 = true
    · rw [if_pos hok] at hci
      rcases ih _ ci hci with h | h
      · rcases sweepStep_deleteCalls env st c with hd | ⟨hd, hp⟩
        · left; rwa [hd] at h
        · rw [hd] at h
          rcases List.mem_append.mp h with h | h
          · exact Or.inl h
          · have hcc : ci = c := by simpa using h
            subst hcc
            exact Or.inr hp
      · exact Or.inr h
    · rw [if_neg hok] at hci
      rcases sweepStep_deleteCalls env st c with hd | ⟨hd, hp⟩
      · left; rwa [hd] at hci
      · rw [hd] at hci
        rcases List.mem_append.mp hci with h | h
        · exact Or.inl h
        · have hcc : ci = c := by simpa using h
          subst hcc
          exact Or.inr hp

/-- A successful sweep appends exactly the referenced-and-deleted non-system
contents to the undelete-call list, and its counters add up per bucket. -/
theorem sweep_ok_spec (env : GCEnv) :
    ∀ (l : List GCContent) (st : SweepState),
      (sweep env l st).snd = true →
      ((sweep env l st).fst.undeleteCalls
          = st.undeleteCalls ++ l.filter (fun ci => gcUsedDeleted env ci) ∧
       (sweep env l st).fst.undeleted.count
          = st.undeleted.count + l.countP (fun ci => gcUsedDeleted env ci) ∧
       (sweep env l st).fst.inUse.count
          = st.inUse.count + l.countP (fun ci => gcUsed env ci) ∧
       (sweep env l st).fst.tooRecent.count
          = st.tooRecent.count + l.countP (fun ci => gcTooRecentB env ci)) := by
  intro l
  induction l with
  | nil => intro st hok; simp [sweep]
  | cons c t ih =>
    intro st hok
    have hunf : sweep env (c :: t) st =
        (if (sweepStep env st c).2 = true then sweep env t (sweepStep env st c).1
         else ((sweepStep env st c).1, false)) := rfl
    by_cases hok2 : (sweepStep env st c).2 = true
    swap
    · rw [hunf, if_neg hok2] at hok
      exact absurd hok (by simp)
    rw [hunf, if_pos hok2] at hok ⊢
    by_cases hsys : c.cid.pfx = manifestContentPfx
    · have hstep : (sweepStep env st c).1
          = { st with system := st.system.add c.packedLength } := by
        simp [sweepStep, hsys]
      have hpred : gcUsedDeleted env c = false ∧ gcUsed env c = false ∧
          gcTooRecentB env c = false := by
        simp [gcUsedDeleted, gcUsed, gcTooRecentB, isSystemContent, hsys]
      rw [hstep] at hok ⊢
      obtain ⟨i1, i2, i3, i4⟩ := ih _ hok
      simp only [i1, i2, i3, i4]
      refine ⟨?_, ?_, ?_, ?_⟩ <;>
        simp [CountSum.add, List.filter_cons, List.countP_cons,
          hpred.1, hpred.2.1, hpred.2.2] <;> try omega
    · by_cases hused : c.cid ∈ env.usedIDs
      · cases hdc : c.deleted
        · -- referenced, not deleted: only the in-use counter grows
          have hstep : (sweepStep env st c).1
              = { st with inUse := st.inUse.add c.packedLength } := by
            simp [sweepStep, hsys, hused, hdc]
          have hpred : gcUsedDeleted env c = false ∧ gcUsed env c = true ∧
              gcTooRecentB env c = false := by
            simp [gcUsedDeleted, gcUsed, gcTooRecentB, isSystemContent, isUsedContent,
              hsys, hused, hdc]
          rw [hstep] at hok ⊢
          obtain ⟨i1, i2, i3, i4⟩ := ih _ hok
          simp only [i1, i2, i3, i4]
          refine ⟨?_, ?_, ?_, ?_⟩ <;>
            simp [CountSum.add, List.filter_cons, List.countP_cons,
              hpred.1, hpred.2.1, hpred.2.2] <;> try omega
        · by_cases huok : env.undeleteOK c.cid = true
          · -- referenced and deleted: undeleted and counted in both buckets
            have hstep : (sweepStep env st c).1
                = { st with
                      undeleteCalls := st.undeleteCalls ++ [c],
                      undeleted := st.undeleted.add c.packedLength,
                      inUse := st.inUse.add c.packedLength } := by
              simp [sweepStep, hsys, hused, hdc, huok]
            have hpred : gcUsedDeleted env c = true ∧ gcUsed env c = true ∧
                gcTooRecentB env c = false := by
              simp [gcUsedDeleted, gcUsed, gcTooRecentB, isSystemContent, isUsedContent,
                hsys, hused, hdc]
            rw [hstep] at hok ⊢
            obtain ⟨i1, i2, i3, i4⟩ := ih _ hok
            simp only [i1, i2, i3, i4]
            refine ⟨?_, ?_, ?_, ?_⟩ <;>
              simp [CountSum.add, List.filter_cons, List.countP_cons,
                hpred.1, hpred.2.1, hpred.2.2] <;> try omega
          · -- the undelete call failed: the step aborts, contradicting success
            have hstep : (sweepStep env st c).2 = false := by
              simp [sweepStep, hsys, hused, hdc, huok]
            rw [hstep] at hok2
            exact absurd hok2 (by simp)
      · by_cases hrec : env.now - c.timestampSeconds < env.minContentAge
        · -- unreferenced but too recent: counted too-recent and skipped
          have hstep : (sweepStep env st c).1
              = { st with tooRecent := st.tooRecent.add c.packedLength } := by
            simp [sweepStep, hsys, hused, hrec]
          have hpred : gcUsedDeleted env c = false ∧ gcUsed env c = false ∧
              gcTooRecentB env c = true := by
            simp [gcUsedDeleted, gcUsed, gcTooRecentB, isSystemContent, isUsedContent,
              isTooRecent, hsys, hused, hrec]
          rw [hstep] at hok ⊢
          obtain ⟨i1, i2, i3, i4⟩ := ih _ hok
          simp only [i1, i2, i3, i4]
          refine ⟨?_, ?_, ?_, ?_⟩ <;>
            simp [CountSum.add, List.filter_cons, List.countP_cons,
              hpred.1, hpred.2.1, hpred.2.2] <;> try omega
        · -- unreferenced and old: only unused and delete calls change
          obtain ⟨h1, h2, h3, h4⟩ := sweepStep_unref env st c hsys hused hrec
          have hpred : gcUsedDeleted env c = false ∧ gcUsed env c = false ∧
              gcTooRecentB env c = false := by
            simp [gcUsedDeleted, gcUsed, gcTooRecentB, isSystemContent, isUsedContent,
              isTooRecent, hsys, hused, hrec]
          obtain ⟨i1, i2, i3, i4⟩ := ih _ hok
          simp only [i1, i2, i3, i4, h1, h2, h3, h4]
          refine ⟨?_, ?_, ?_, ?_⟩ <;>
            simp [List.filter_cons, List.countP_cons,
              hpred.1, hpred.2.1, hpred.2.2] <;> try omega

/-- A successful GC run had a successful sweep. -/
theorem runInternal_ok_sweep (env : GCEnv) (contents : List GCContent)
    (hok : (runInternal env contents).snd = true) :
    (sweep env contents initSweepState).snd = true := by
  cases hs : (sweep env contents initSweepState).snd
  · exact absurd hok (by simp [runInternal, hs])
  · rfl

/-- C2: during any GC run, every content passed to `DeleteContent` is at least
`MinContentAgeSubjectToGC` old — no content inside the safety window is ever
deleted, regardless of reference state — and on a successful run the
`tooRecent` bucket counts exactly the unreferenced non-system contents inside
the safety window. -/
theorem gcSafetyWindow (env : GCEnv) (contents : List GCContent) :
    (∀ ci ∈ (sweep env contents initSweepState).fst.deleteCalls,
        env.minContentAge ≤ env.now - ci.timestampSeconds) ∧
    ((runInternal env contents).snd = true →
      (sweep env contents initSweepState).fst.tooRecent.count
        = contents.countP (fun ci => gcTooRecentB env ci)) := by
  constructor
  · intro ci hci
    rcases sweep_deleteCalls_spec env contents initSweepState ci hci with h | h
    · simp [initSweepState] at h
    · have hr := h.2.2
      simp [isTooRecent] at hr
      omega
  · intro hok
    have hsw := runInternal_ok_sweep env contents hok
    have := (sweep_ok_spec env contents initSweepState hsw).2.2.2
    simpa [initSweepState] using this

/-- C3 (amended): after a successful `Run(gcDelete=true)`, every content that
is referenced, marked deleted and does not carry the manifest-system prefix
has been passed to `UndeleteContent`, and the `undeleted` and `inUse` buckets
count exactly the referenced-and-deleted and the referenced non-system
contents; manifest-prefix contents are counted as `system` in step one of the
sweep and are exempt. -/
theorem gcUndelete (env : GCEnv) (contents : List GCContent)
    (hdel : env.gcDelete = true)
    (hok : (runInternal env contents).snd = true) :
    (∀ ci ∈ contents, isSystemContent ci = false → isUsedContent env ci = true →
        ci.deleted = true →
        ci ∈ (sweep env contents initSweepState).fst.undeleteCalls) ∧
    (sweep env contents initSweepState).fst.undeleted.count
        = contents.countP (fun ci => gcUsedDeleted env ci) ∧
    (sweep env contents initSweepState).fst.inUse.count
        = contents.countP (fun ci => gcUsed env ci) := by
  have hsw := runInternal_ok_sweep env contents hok
  obtain ⟨hcalls, hund, hinuse, -⟩ := sweep_ok_spec env contents initSweepState hsw
  refine ⟨?_, by simpa [initSweepState] using hund,
    by simpa [initSweepState] using hinuse⟩
  intro ci hci hs hu hd
  rw [hcalls]
  refine List.mem_append.mpr (Or.inr ?_)
  exact List.mem_filter.mpr ⟨hci, by simp [gcUsedDeleted, hs, hu, hd]⟩

/-- C3 counterexample: a deleted content whose ID carries the manifest prefix
and which is in the mark set is counted as `system` and is never undeleted,
although `Run(gcDelete=true)` completes successfully — so the claim as stated,
without the manifest-prefix exemption, is false. -/
theorem gcUndelete_manifest_prefix_counterexample :
    gcCtrContent.deleted = true ∧
    gcCtrContent.cid ∈ gcCtrEnv.usedIDs ∧
    gcCtrEnv.gcDelete = true ∧
    (runInternal gcCtrEnv [gcCtrContent]).snd = true ∧
    (sweep gcCtrEnv [gcCtrContent] initSweepState).fst.undeleteCalls = [] ∧
    (sweep gcCtrEnv [gcCtrContent] initSweepState).fst.undeleted.count = 0 := by
  decide

/-- C3 witness: a deleted, referenced user content is undeleted and counted in
both buckets by a successful `Run(gcDelete=true)`. -/
theorem gcUndelete_witness :
    (∀ ci ∈ [gcWContent], isSystemContent ci = false →
        isUsedContent gcWEnv ci = true → ci.deleted = true →
        ci ∈ (sweep gcWEnv [gcWContent] initSweepState).fst.undeleteCalls) ∧
    (sweep gcWEnv [gcWContent] initSweepState).fst.undeleted.count
        = List.countP (fun ci => gcUsedDeleted gcWEnv ci) [gcWContent] ∧
    (sweep gcWEnv [gcWContent] initSweepState).fst.inUse.count
        = List.countP (fun ci => gcUsed gcWEnv ci) [gcWContent] :=
  gcUndelete gcWEnv [gcWContent] rfl (by decide)

/-- C4 (amended): `Build` returns a manifest whose summary equals the
accumulated summary with `TotalDirCount` incremented by one, with `MaxModTime`
set to `dirModTime` exactly when the entry list is empty, and with the given
incomplete reason; the returned `FailedEntries` are sorted ascending by path
but keep their full length — the truncation to
`MaxFailedEntriesPerDirectorySummary` applies only to the builder's retained
summary, because the returned summary copy is taken before `sortedTopFailures`
truncates; the returned entries are a permutation of the accumulated entries
sorted with directories first and each group ascending by name. -/
theorem build_spec (b : DirManifestBuilder) (dirModTime : Int) (reason : String) :
    (build b dirModTime reason).fst.summary.totalDirCount = b.summary.totalDirCount + 1 ∧
    (build b dirModTime reason).fst.summary.totalFileCount = b.summary.totalFileCount ∧
    (build b dirModTime reason).fst.summary.totalFileSize = b.summary.totalFileSize ∧
    (build b dirModTime reason).fst.summary.totalSymlinkCount = b.summary.totalSymlinkCount ∧
    (build b dirModTime reason).fst.summary.fatalErrorCount = b.summary.fatalErrorCount ∧
    (build b dirModTime reason).fst.summary.ignoredErrorCount = b.summary.ignoredErrorCount ∧
    (b.entries = [] → (build b dirModTime reason).fst.summary.maxModTime = dirModTime) ∧
    (b.entries ≠ [] → (build b dirModTime reason).fst.summary.maxModTime
        = b.summary.maxModTime) ∧
    (build b dirModTime reason).fst.summary.incompleteReason = reason ∧
    List.Sorted failedLE (build b dirModTime reason).fst.summary.failedEntries ∧
    ((build b dirModTime reason).fst.summary.failedEntries).Perm b.summary.failedEntries ∧
    (build b dirModTime reason).snd.summary.failedEntries
      = ((build b dirModTime reason).fst.summary.failedEntries).take
          maxFailedEntriesPerDirectorySummary ∧
    List.Sorted entryLE (build b dirModTime reason).fst.entries ∧
    ((build b dirModTime reason).fst.entries).Perm b.entries := by
  haveI : IsTotal EntryWithError failedLE := ⟨fun x y => le_total x.entryPath y.entryPath⟩
  haveI : IsTrans EntryWithError failedLE := ⟨fun x y z hx hy => le_trans hx hy⟩
  haveI : IsTotal DirEntry entryLE := ⟨fun x y => le_total (entryKey x) (entryKey y)⟩
  haveI : IsTrans DirEntry entryLE := ⟨fun x y z hx hy => le_trans hx hy⟩
  refine ⟨rfl, rfl, rfl, rfl, rfl, rfl, ?_, ?_, rfl, ?_, ?_, rfl, ?_, ?_⟩
  · intro h; simp [build, h]
  · intro h
    cases hb : b.entries with
    | nil => exact absurd hb h
    | cons x xs => simp [build, hb]
  · exact List.sorted_insertionSort failedLE b.summary.failedEntries
  · exact List.perm_insertionSort failedLE b.summary.failedEntries
  · exact List.sorted_insertionSort entryLE b.entries
  · exact List.perm_insertionSort entryLE b.entries

/-- C4 counterexample: a builder holding eleven failed entries produces a
manifest whose summary still lists all eleven — more than
`MaxFailedEntriesPerDirectorySummary` — so the returned `FailedEntries` are
not truncated as the claim states. -/
theorem build_failedEntries_not_truncated :
    ((build c4Builder 0 "").fst.summary.failedEntries.length = 11) ∧
    ¬((build c4Builder 0 "").fst.summary.failedEntries.length
        ≤ maxFailedEntriesPerDirectorySummary) := by
  have hlen : (build c4Builder 0 "").fst.summary.failedEntries.length
      = c4Builder.summary.failedEntries.length :=
    (List.perm_insertionSort failedLE c4Builder.summary.failedEntries).length_eq
  have h11 : c4Builder.summary.failedEntries.length = 11 := rfl
  rw [hlen, h11]
  exact ⟨rfl, by decide⟩

/-- The running maximum dominates its first argument. -/
theorem maxTime_le_left (cur t : Int) : cur ≤ maxTime cur t := by
  simp only [maxTime]
  split_ifs <;> omega

/-- The running maximum dominates its second argument. -/
theorem le_maxTime_right (cur t : Int) : t ≤ maxTime cur t := by
  simp only [maxTime]
  split_ifs <;> omega

/-- One well-formed operation preserves the builder invariant. -/
theorem applyOp_inv (b : DirManifestBuilder) (op : BuilderOp)
    (hb : builderInv b) (hop : opOk op = true) : builderInv (applyOp b op) := by
  obtain ⟨hnn, hent⟩ := hb
  have hnn' : 0 ≤ b.summary.totalFileCount ∧ 0 ≤ b.summary.totalFileSize ∧
      0 ≤ b.summary.totalDirCount ∧ 0 ≤ b.summary.fatalErrorCount ∧
      0 ≤ b.summary.ignoredErrorCount := by
    simpa [summNonNeg, Bool.and_eq_true, decide_eq_true_eq, and_assoc] using hnn
  cases op with
  | failed relPath isIgnored errMsg =>
    constructor
    · cases hi : isIgnored <;>
        simp [applyOp, addFailedEntry, hi, summNonNeg, Bool.and_eq_true,
          decide_eq_true_eq] <;> omega
    · intro c hc cs hcs
      have hcb : c ∈ b.entries := by
        cases hi : isIgnored <;> simpa [applyOp, addFailedEntry, hi] using hc
      obtain ⟨hle, hmm'⟩ := hent c hcb cs hcs
      obtain ⟨a1, a2, a3, a4, a5⟩ := hle
      cases hi : isIgnored <;>
        refine ⟨⟨?_, ?_, ?_, ?_, ?_⟩, ?_⟩ <;>
          simp [applyOp, addFailedEntry, hi] <;> omega
  | entry de =>
    have hsz : 0 ≤ de.fileSize := by
      rcases Bool.and_eq_true _ _ |>.mp hop with ⟨h1, -⟩
      simpa using h1
    have hmono : summLe b.summary (applyOp b (.entry de)).summary ∧
        b.summary.maxModTime ≤ (applyOp b (.entry de)).summary.maxModTime ∧
        summNonNeg (applyOp b (.entry de)).summary = true := by
      cases hty : de.entryType with
      | symlink =>
        refine ⟨⟨?_, ?_, ?_, ?_, ?_⟩, ?_, ?_⟩ <;>
          simp [applyOp, addEntry, hty, summNonNeg, Bool.and_eq_true, decide_eq_true_eq,
            maxTime_le_left] <;> omega
      | file =>
        refine ⟨⟨?_, ?_, ?_, ?_, ?_⟩, ?_, ?_⟩ <;>
          simp [applyOp, addEntry, hty, summNonNeg, Bool.and_eq_true, decide_eq_true_eq,
            maxTime_le_left] <;> omega
      | directory =>
        cases hds : de.dirSummary with
        | none =>
          refine ⟨⟨?_, ?_, ?_, ?_, ?_⟩, ?_, ?_⟩ <;>
            simp [applyOp, addEntry, hty, hds, summNonNeg, Bool.and_eq_true,
              decide_eq_true_eq, maxTime_le_left] <;> omega
        | some cs' =>
          have hcs' : 0 ≤ cs'.totalFileCount ∧ 0 ≤ cs'.totalFileSize ∧
              0 ≤ cs'.totalDirCount ∧ 0 ≤ cs'.fatalErrorCount ∧
              0 ≤ cs'.ignoredErrorCount := by
            rcases Bool.and_eq_true _ _ |>.mp hop with ⟨-, h2⟩
            rw [hds] at h2
            rcases Bool.and_eq_true _ _ |>.mp h2 with ⟨h3, -⟩
            simpa [summNonNeg, Bool.and_eq_true, decide_eq_true_eq, and_assoc] using h3
          refine ⟨⟨?_, ?_, ?_, ?_, ?_⟩, ?_, ?_⟩ <;>
            simp [applyOp, addEntry, hty, hds, summNonNeg, Bool.and_eq_true,
              decide_eq_true_eq] <;>
            first
              | omega
              | exact le_trans (maxTime_le_left _ _) (maxTime_le_left _ _)
    refine ⟨hmono.2.2, ?_⟩
    intro c hc cs hcs
    have hce : c ∈ b.entries ++ [de] := by
      simpa [applyOp, addEntry] using hc
    rcases List.mem_append.mp hce with hcb | hcd
    · obtain ⟨hle, hmm'⟩ := hent c hcb cs hcs
      obtain ⟨m1, m2, m3, m4, m5⟩ := hmono.1
      obtain ⟨a1, a2, a3, a4, a5⟩ := hle
      exact ⟨⟨le_trans a1 m1, le_trans a2 m2, le_trans a3 m3, le_trans a4 m4,
        le_trans a5 m5⟩, le_trans hmm' hmono.2.1⟩
    · have hcd' : c = de := by simpa using hcd
      subst hcd'
      have hty : c.entryType = EntryType.directory := by
        rcases Bool.and_eq_true _ _ |>.mp hop with ⟨-, h2⟩
        rw [hcs] at h2
        rcases Bool.and_eq_true _ _ |>.mp h2 with ⟨-, h4⟩
        simpa using h4
      have hcsnn : 0 ≤ cs.totalFileCount ∧ 0 ≤ cs.totalFileSize ∧
          0 ≤ cs.totalDirCount ∧ 0 ≤ cs.fatalErrorCount ∧
          0 ≤ cs.ignoredErrorCount := by
        rcases Bool.and_eq_true _ _ |>.mp hop with ⟨-, h2⟩
        rw [hcs] at h2
        rcases Bool.and_eq_true _ _ |>.mp h2 with ⟨h3, -⟩
        simpa [summNonNeg, Bool.and_eq_true, decide_eq_true_eq, and_assoc] using h3
      refine ⟨⟨?_, ?_, ?_, ?_, ?_⟩, ?_⟩ <;>
        simp [applyOp, addEntry, hty, hcs] <;>
        first
          | omega
          | exact le_maxTime_right _ _

/-- The fresh builder satisfies the invariant. -/
theorem emptyBuilder_inv : builderInv emptyBuilder := by
  constructor
  · decide
  · intro c hc
    exact absurd hc (List.not_mem_nil c)

/-- Well-formed operation sequences preserve the builder invariant. -/
theorem foldl_applyOp_inv :
    ∀ (ops : List BuilderOp) (b : DirManifestBuilder),
      builderInv b → (∀ op ∈ ops, opOk op = true) →
      builderInv (ops.foldl applyOp b) := by
  intro ops
  induction ops with
  | nil => intro b hb _; exact hb
  | cons op t ih =>
    intro b hb hops
    exact ih _ (applyOp_inv b op hb (hops op (List.mem_cons_self _ _)))
      (fun o ho => hops o (List.mem_cons_of_mem _ ho))

/-- C9: for every manifest the builder produces from well-formed operations,
each count of the manifest summary dominates the corresponding count of every
child entry's summary, and the manifest's max mod-time is not earlier than any
child's — `addEntry` only ever adds child-summary contributions. -/
theorem dirSummary_monotone (ops : List BuilderOp) (dirModTime : Int) (reason : String)
    (hops : ∀ op ∈ ops, opOk op = true) :
    ∀ c ∈ (build (runOps ops) dirModTime reason).fst.entries,
      ∀ cs, c.dirSummary = some cs →
        summLe cs (build (runOps ops) dirModTime reason).fst.summary ∧
        cs.maxModTime ≤ (build (runOps ops) dirModTime reason).fst.summary.maxModTime := by
  intro c hc cs hcs
  have hbinv : builderInv (runOps ops) :=
    foldl_applyOp_inv ops emptyBuilder emptyBuilder_inv hops
  have hcmem : c ∈ (runOps ops).entries := by
    have hc' : c ∈ List.insertionSort entryLE (runOps ops).entries := hc
    simpa using hc'
  obtain ⟨hle, hmm'⟩ := hbinv.2 c hcmem cs hcs
  have hne : (runOps ops).entries.isEmpty = false := by
    cases hb : (runOps ops).entries with
    | nil => rw [hb] at hcmem; exact absurd hcmem (List.not_mem_nil c)
    | cons x xs => rfl
  obtain ⟨a1, a2, a3, a4, a5⟩ := hle
  constructor
  · refine ⟨?_, ?_, ?_, ?_, ?_⟩ <;> simp [build] <;> omega
  · simp [build, hne]
    exact hmm'

/-- C9 witness: in a concrete run adding a directory with a child summary, a
file, and a failed entry, the built manifest's summary dominates the child
directory's summary. -/
theorem dirSummary_monotone_witness :
    summLe wChildSummary (build (runOps wOps) 0 "x").fst.summary ∧
    wChildSummary.maxModTime ≤ (build (runOps wOps) 0 "x").fst.summary.maxModTime :=
  dirSummary_monotone wOps 0 "x" (by decide) wDirEntry
    ((List.mem_insertionSort entryLE).mpr (by decide)) wChildSummary rfl

end Kopia
